import Mathlib

/-!
Verification of the stock-screener frontend core: response normalization
(`agentApi.js` / `postJSON`), the query orchestration in the two App variants
(`App.jsx` and the unnamed variant, called `part_001` here), the persisted
history store, and the timer-driven step simulation.

JavaScript is embedded shallowly: untyped values become the inductive `JsVal`,
`JSON.parse` becomes a fuel-based executable parser returning `Option`
(`none` where `JSON.parse` throws), truthiness / nullish-coalescing / optional
chaining become explicit functions, and the React state updates of one
`handleSubmit` call are collapsed into a pure state-transition function.
-/

namespace StockScreener

/-- Untyped JavaScript-like values: the model of what `res.json()` and
`JSON.parse` produce and what the React state fields hold.  `undefined` is
JavaScript `undefined` (absent property, absent value). -/
inductive JsVal where
  | null
  | undefined
  | bool (b : Bool)
  | num (n : Int)
  | str (s : String)
  | arr (elems : List JsVal)
  | obj (fields : List (String × JsVal))

/-- Property lookup in an object's field list; the first binding wins. -/
def getField : List (String × JsVal) → String → JsVal
  | [], _ => .undefined
  | (k, v) :: rest, key => if k = key then v else getField rest key

/-- `v?.key` / `v.key`: property access.  On an object it looks the key up and
yields `undefined` when absent.  In the source every access on a possibly
`null`/`undefined` value uses optional chaining (`?.`), which yields
`undefined`; plain accesses only occur on values known to be objects, and
access on other primitives yields `undefined`, so one total function models
all the accesses that are reachable in the code. -/
def jsGet : JsVal → String → JsVal
  | .obj fields, key => getField fields key
  | _, _ => .undefined

/-- JavaScript truthiness: `null`, `undefined`, `false`, `0`, `""` are falsy,
everything else (objects, arrays, non-empty strings, non-zero numbers) is
truthy. -/
def truthy : JsVal → Bool
  | .null => false
  | .undefined => false
  | .bool b => b
  | .num n => n != 0
  | .str s => s != ""
  | .arr _ => true
  | .obj _ => true

/-- Is the value `null` or `undefined` (the values the `??` operator skips)? -/
def nullish : JsVal → Bool
  | .null => true
  | .undefined => true
  | _ => false

/-- JavaScript `a || b`. -/
def jsOr (a b : JsVal) : JsVal := if truthy a then a else b

/-- JavaScript `a ?? b`. -/
def jsNullish (a b : JsVal) : JsVal := if nullish a then b else a

/-! ### A model of `JSON.parse` and `JSON.stringify`

`JSON.parse` is the platform primitive the source calls inside `try`/`catch`
blocks; it is modeled as an executable recursive-descent parser over the
string's characters, returning `none` exactly where `JSON.parse` would throw
a `SyntaxError`.  Numeric literals are modeled as integers (fraction and
exponent forms never occur in the inputs the claims are about). -/

/-- JSON insignificant whitespace. -/
def isWsChar (c : Char) : Bool := c = ' ' || c = '\t' || c = '\n' || c = '\r'

def skipWs (cs : List Char) : List Char := cs.dropWhile isWsChar

def hexDigit (c : Char) : Option Nat :=
  if '0' ≤ c ∧ c ≤ '9' then some (c.toNat - '0'.toNat)
  else if 'a' ≤ c ∧ c ≤ 'f' then some (c.toNat - 'a'.toNat + 10)
  else if 'A' ≤ c ∧ c ≤ 'F' then some (c.toNat - 'A'.toNat + 10)
  else none

/-- Single-character escape sequences of JSON string literals. -/
def unescapeChar (c : Char) : Option Char :=
  if c = '"' then some '"'
  else if c = '\\' then some '\\'
  else if c = '/' then some '/'
  else if c = 'n' then some '\n'
  else if c = 't' then some '\t'
  else if c = 'r' then some '\r'
  else if c = 'b' then some (Char.ofNat 8)
  else if c = 'f' then some (Char.ofNat 12)
  else none

/-- Parse the body of a JSON string literal (the opening quote already
consumed), returning the decoded characters and the rest of the input. -/
def parseStrChars : List Char → Option (List Char × List Char)
  | [] => none
  | c :: rest =>
    if c = '"' then some ([], rest)
    else if c = '\\' then
      match rest with
      | [] => none
      | e :: r2 =>
        if e = 'u' then
          match r2 with
          | h1 :: h2 :: h3 :: h4 :: r3 =>
            match hexDigit h1, hexDigit h2, hexDigit h3, hexDigit h4,
                parseStrChars r3 with
            | some a, some b, some c', some d, some (cs, r4) =>
              some (Char.ofNat (((a * 16 + b) * 16 + c') * 16 + d) :: cs, r4)
            | _, _, _, _, _ => none
          | _ => none
        else
          match unescapeChar e, parseStrChars r2 with
          | some ec, some (cs, r3) => some (ec :: cs, r3)
          | _, _ => none
    else
      match parseStrChars rest with
      | some (cs, r2) => some (c :: cs, r2)
      | none => none

/-- Accumulate consecutive decimal digits. -/
def digitsToNat (acc : Nat) : List Char → Nat × List Char
  | [] => (acc, [])
  | c :: rest =>
    if c.isDigit then digitsToNat (acc * 10 + (c.toNat - '0'.toNat)) rest
    else (acc, c :: rest)

/-- Parse an (integer) JSON number starting at the given characters. -/
def parseNumFrom (cs : List Char) : Option (JsVal × List Char) :=
  let p := match cs with
    | '-' :: r => (true, r)
    | _ => (false, cs)
  match p.2 with
  | c :: _ =>
    if c.isDigit then
      let q := digitsToNat 0 p.2
      some (.num (if p.1 then -(q.1 : Int) else (q.1 : Int)), q.2)
    else none
  | [] => none

mutual

/-- Parse one JSON value; the fuel bounds recursion depth and is always
sufficient for fuel at least the input length plus one. -/
def parseVal : Nat → List Char → Option (JsVal × List Char)
  | 0, _ => none
  | n + 1, cs =>
    match skipWs cs with
    | [] => none
    | c :: rest =>
      if c = 'n' then
        match rest with
        | 'u' :: 'l' :: 'l' :: r => some (.null, r)
        | _ => none
      else if c = 't' then
        match rest with
        | 'r' :: 'u' :: 'e' :: r => some (.bool true, r)
        | _ => none
      else if c = 'f' then
        match rest with
        | 'a' :: 'l' :: 's' :: 'e' :: r => some (.bool false, r)
        | _ => none
      else if c = '"' then
        match parseStrChars rest with
        | some (cs2, r) => some (.str (String.mk cs2), r)
        | none => none
      else if c = '[' then
        match skipWs rest with
        | ']' :: r => some (.arr [], r)
        | cs2 =>
          match parseElems n cs2 with
          | some (vs, r) => some (.arr vs, r)
          | none => none
      else if c = '\x7b' then
        match skipWs rest with
        | '\x7d' :: r => some (.obj [], r)
        | cs2 =>
          match parseMembers n cs2 with
          | some (ms, r) => some (.obj ms, r)
          | none => none
      else parseNumFrom (c :: rest)

/-- Parse the comma-separated elements of a non-empty JSON array, consuming
the closing bracket. -/
def parseElems : Nat → List Char → Option (List JsVal × List Char)
  | 0, _ => none
  | n + 1, cs =>
    match parseVal n cs with
    | none => none
    | some (v, r) =>
      match skipWs r with
      | ',' :: r2 =>
        match parseElems n r2 with
        | some (vs, r3) => some (v :: vs, r3)
        | none => none
      | ']' :: r2 => some ([v], r2)
      | _ => none

/-- Parse the members of a non-empty JSON object, consuming the closing
brace. -/
def parseMembers : Nat → List Char → Option (List (String × JsVal) × List Char)
  | 0, _ => none
  | n + 1, cs =>
    match skipWs cs with
    | '"' :: rest =>
      match parseStrChars rest with
      | none => none
      | some (kcs, r) =>
        match skipWs r with
        | ':' :: r2 =>
          match parseVal n r2 with
          | none => none
          | some (v, r3) =>
            match skipWs r3 with
            | ',' :: r4 =>
              match parseMembers n r4 with
              | some (ms, r5) => some ((String.mk kcs, v) :: ms, r5)
              | none => none
            | '\x7d' :: r4 => some ([(String.mk kcs, v)], r4)
            | _ => none
        | _ => none
    | _ => none

end

/-- Model of `JSON.parse`: `none` exactly where `JSON.parse` throws. -/
def jsonParse (s : String) : Option JsVal :=
  match parseVal (s.length + 1) s.data with
  | some (v, r) => if (skipWs r).isEmpty then some v else none
  | none => none

/-- `JSON.parse` as a fallible (throwing) computation, used to state that the
source's `try`/`catch` blocks recover from every parse failure. -/
def jsonParseE (s : String) : Except String JsVal :=
  match jsonParse s with
  | some v => .ok v
  | none => .error "SyntaxError"

/-- Escape one character for a JSON string literal. -/
def escChar (c : Char) : String :=
  if c = '"' then "\\\""
  else if c = '\\' then "\\\\"
  else if c = '\n' then "\\n"
  else if c = '\t' then "\\t"
  else if c = '\r' then "\\r"
  else String.singleton c

def escString (s : String) : String := String.join (s.data.map escChar)

mutual

/-- Model of `JSON.stringify` (compact form; the `null, 2` pretty-printing
indentation used for display in `App.jsx` only inserts whitespace and plays no
role in any claim, and `undefined`-valued members never occur in the modeled
payloads). -/
def jsonStringify : JsVal → String
  | .null => "null"
  | .undefined => "null"
  | .bool true => "true"
  | .bool false => "false"
  | .num n => toString n
  | .str s => "\"" ++ escString s ++ "\""
  | .arr xs => "[" ++ stringifyElems xs ++ "]"
  | .obj fs => "\x7b" ++ stringifyFields fs ++ "\x7d"

def stringifyElems : List JsVal → String
  | [] => ""
  | [x] => jsonStringify x
  | x :: xs => jsonStringify x ++ "," ++ stringifyElems xs

def stringifyFields : List (String × JsVal) → String
  | [] => ""
  | [(k, v)] => "\"" ++ escString k ++ "\":" ++ jsonStringify v
  | (k, v) :: fs =>
    "\"" ++ escString k ++ "\":" ++ jsonStringify v ++ "," ++ stringifyFields fs

end

/-! ### `agentApi.js`: `postJSON`

`postJSON` performs the fetch, parses the body with `res.json().catch(() =>
null)`, and on success extracts `payload?.analysis ?? payload`, JSON-parsing
it when it is a string (keeping the string on parse failure).  Its input is
modeled as the observable outcome of the fetch: either a thrown network error
(with the exception's `message`) or a response with a status code and the
body `payload` that `res.json()` produced (`null` when the body was not
JSON). -/

inductive HttpOutcome where
  | networkError (msg : String)
  | response (status : Nat) (payload : JsVal)

/-- `Response.ok`: status in the range 200-299. -/
def okStatus (status : Nat) : Bool := decide (200 ≤ status ∧ status < 300)

/-- Lines 17-24 of `agentApi.js`:
`let content = payload?.analysis ?? payload;` followed by
`if (typeof content === "string") try content = JSON.parse(content) catch ...`
(on parse failure the string is kept). -/
def contentOf (payload : JsVal) : JsVal :=
  match jsNullish (jsGet payload "analysis") payload with
  | .str s =>
    match jsonParse s with
    | some v => v
    | none => .str s
  | v => v

/-- The result object `postJSON` returns, as the plain JavaScript object it
is: `\x7b ok, data, raw \x7d` on success and `\x7b ok, error \x7d` on
failure. -/
def postJSON : HttpOutcome → JsVal
  | .networkError m =>
    .obj [("ok", .bool false), ("error", .str (if m = "" then "Network error" else m))]
  | .response status payload =>
    if okStatus status then
      .obj [("ok", .bool true), ("data", contentOf payload), ("raw", payload)]
    else
      .obj [("ok", .bool false),
        ("error", jsOr (jsGet payload "detail") (.str ("HTTP " ++ toString status)))]

/-- The `contentOf` step with the throwing sub-step kept fallible:
`JSON.parse` is the throwing primitive `jsonParseE` and the surrounding
`try`/`catch` is the explicit `Except` recovery, exactly as in the source. -/
def contentOfE (payload : JsVal) : Except String JsVal :=
  match jsNullish (jsGet payload "analysis") payload with
  | .str s =>
    match jsonParseE s with
    | .ok v => Except.ok v
    | .error _ => Except.ok (.str s)
  | v => Except.ok v

/-- `postJSON`'s success branch in the fallible model. -/
def postJSONE (status : Nat) (payload : JsVal) : Except String JsVal :=
  if okStatus status then do
    let content ← contentOfE payload
    Except.ok (.obj [("ok", .bool true), ("data", content), ("raw", payload)])
  else
    Except.ok (.obj [("ok", .bool false),
      ("error", jsOr (jsGet payload "detail") (.str ("HTTP " ++ toString status)))])

/-! ### The `part_001` App variant: `handleSubmit` and history -/

/-- The unwrap chain of `part_001` line 45:
`res.data?.data || res.data || res.content || null`. -/
def selectPayload (res : JsVal) : JsVal :=
  jsOr (jsGet (jsGet res "data") "data")
    (jsOr (jsGet res "data") (jsOr (jsGet res "content") .null))

/-- The whole normalization path for a successful (HTTP 200) response body
`payload`: `postJSON`'s content extraction followed by the `part_001` unwrap
chain.  This is the value `handleSubmit` commits with `setData(apiData)`. -/
def normalize (payload : JsVal) : JsVal :=
  selectPayload (postJSON (.response 200 payload))

/-- The normalization path with the throwing sub-steps kept fallible, to state
that no input makes it propagate an error. -/
def normalizeE (payload : JsVal) : Except String JsVal := do
  let res ← postJSONE 200 payload
  Except.ok (selectPayload res)

/-- JavaScript string coercion `String(v)`, used for `Error(v).message`.  Only
the string case matters on the reachable inputs (the `error` field built by
`postJSON` is a string whenever `detail` is absent or a string). -/
def jsToString : JsVal → String
  | .str s => s
  | .num n => toString n
  | .bool true => "true"
  | .bool false => "false"
  | .null => "null"
  | .undefined => "undefined"
  | .arr _ => ""
  | .obj _ => "[object Object]"

/-- The user-visible message produced by
`throw new Error(res.error || "Agent error")` being caught and stored with
`setError(err.message || "Failed to get analysis.")` in `part_001`. -/
def errMsg (res : JsVal) : String :=
  let m := jsToString (jsOr (jsGet res "error") (.str "Agent error"))
  if m = "" then "Failed to get analysis." else m

/-- Whitespace removed by `String.prototype.trim`. -/
def isTrimChar (c : Char) : Bool :=
  c = ' ' || c = '\t' || c = '\n' || c = '\r' || c = '\x0b' || c = '\x0c'

/-- Model of `query.trim()`. -/
def jsTrim (s : String) : String :=
  String.mk (((s.data.dropWhile isTrimChar).reverse.dropWhile isTrimChar).reverse)

/-- `arr.forEach` / spread is only applied to arrays; a non-array
`feedback_steps` never occurs on the inputs the claims quantify over. -/
def toElems : JsVal → List JsVal
  | .arr xs => xs
  | _ => []

/-- The React state owned by the `part_001` App component, plus the
`localStorage` slot under the key `screener_history_v1` (`none` models an
absent key). -/
structure AppState where
  query : String
  data : JsVal
  loading : Bool
  error : String
  history : List JsVal
  feedback : List JsVal
  activeStep : Nat
  storage : Option String

/-- `part_001`'s `pushHistory`: prepend, truncate to 30, store in state and
persist the same list under `screener_history_v1`. -/
def pushHistory (entry : JsVal) (st : AppState) : AppState :=
  let next := (entry :: st.history).take 30
  { st with history := next, storage := some (jsonStringify (.arr next)) }

/-- One complete `handleSubmit` call of the `part_001` App, collapsed to its
net state transition.  `outcome` is what the awaited `queryAgent` fetch
observes; `now` is `Date.now()` and `ts` the ISO timestamp.  The returned
`Bool` records whether a request was issued at all.  The `(idx+1)*800`
`setTimeout` transitions it schedules are modeled separately (`scheduleSteps`
below); at the end of the call itself `activeStep` is 0. -/
def handleSubmit (st : AppState) (outcome : HttpOutcome) (now : Int) (ts : String) :
    AppState × Bool :=
  if jsTrim st.query = "" then
    ({ st with error := "Please enter a company name or query." }, false)
  else
    let st1 := { st with loading := true, error := "", data := JsVal.null, feedback := [], activeStep := 0 }
    let res := postJSON outcome
    if truthy (jsGet res "ok") then
      let apiData := selectPayload res
      let steps := toElems (jsOr (jsGet apiData "feedback_steps") (.arr []))
      let entry : JsVal := .obj [("id", .num now), ("query", .str st.query),
        ("result", apiData), ("ts", .str ts)]
      (pushHistory entry
        { st1 with feedback := steps, data := apiData, loading := false }, true)
    else
      ({ st1 with error := errMsg res, loading := false }, true)

/-! ### The `App.jsx` variant: commit of the display value -/

/-- `App.jsx`'s success commit: `let content = res.content ?? res.raw ?? "";`
then `if (typeof content === "object") content = JSON.stringify(content)`;
the result is stored with `setAnalysis(content)`. -/
def typeofObject : JsVal → Bool
  | .obj _ => true
  | .arr _ => true
  | .null => true
  | _ => false

/-- The display value the `App.jsx` variant commits for a successful
response object `res` (the `postJSON` result). -/
def committedAnalysis (res : JsVal) : JsVal :=
  let content := jsNullish (jsGet res "content") (jsNullish (jsGet res "raw") (.str ""))
  if typeofObject content then .str (jsonStringify content) else content

/-! ### History load and clear, in both variants -/

/-- The `App.jsx` history-load effect: `getItem` then, inside `try`/`catch`,
`if (raw) setHistory(JSON.parse(raw))`; the state keeps its initial `[]` when
the key is absent, the string is falsy, or the parse throws. -/
def loadApp (storage : Option String) : JsVal :=
  match storage with
  | none => .arr []
  | some raw =>
    if raw = "" then .arr []
    else
      match jsonParse raw with
      | some v => v
      | none => .arr []

/-- The `part_001` history-load effect: `if (raw) setHistory(JSON.parse(raw))`
with no `try`/`catch`, so a failing parse propagates as a thrown
`SyntaxError`. -/
def loadPart001 (storage : Option String) : Except String JsVal :=
  match storage with
  | none => .ok (.arr [])
  | some raw =>
    if raw = "" then .ok (.arr [])
    else
      match jsonParseE raw with
      | .ok v => .ok v
      | .error e => .error e

/-- In-memory history list together with the persisted blob. -/
structure HistState where
  mem : List JsVal
  storage : Option String

/-- The clear action as wired in `App.jsx`: `HistoryList.handleClear` removes
the storage key and calls `onClear`, which runs `setHistory([])` and removes
the key again. -/
def clearApp (_st : HistState) : HistState :=
  { mem := [], storage := none }

/-- The clear action as wired in the `part_001` App: `HistoryList` is rendered
without an `onClear` prop, so `onClear` is the default no-op and only
`localStorage.removeItem` runs; the in-memory list is untouched. -/
def clearPart001 (st : HistState) : HistState :=
  { st with storage := none }

/-- `pushHistory` on the standalone history state (same code as in
`AppState.pushHistory`, restricted to the fields it touches). -/
def pushLog (entry : JsVal) (st : HistState) : HistState :=
  let next := (entry :: st.mem).take 30
  { mem := next, storage := some (jsonStringify (.arr next)) }

/-- Sequential pushes, oldest first. -/
def pushAll (entries : List JsVal) (st : HistState) : HistState :=
  entries.foldl (fun s e => pushLog e s) st

/-! ### The step-transition timers of `part_001`

`handleSubmit` runs `steps.forEach((_, idx) => setTimeout(() =>
setActiveStep(idx + 1), (idx + 1) * 800))`.  No `clearTimeout` for these
timers exists anywhere in the source, so timers pending from a previous run
are carried over untouched when a new run schedules its own. -/

structure Timer where
  runId : Nat
  fireAt : Nat
  newStep : Nat

/-- The timers one successful submit (run `runId`, at time `now`, with stage
list `steps`) adds to the already pending ones.  Mirrors the `forEach` above;
the absence of any cancellation is the absence of any removal here. -/
def scheduleSteps (runId now : Nat) (steps : List JsVal) (pending : List Timer) :
    List Timer :=
  pending ++ (List.range steps.length).map (fun idx =>
    { runId := runId, fireAt := now + (idx + 1) * 800, newStep := idx + 1 })

/-- The timers still pending strictly after time `t` (the ones the event loop
will fire after `t`; every pending timer eventually fires since nothing
cancels them). -/
def pendingAfter (timers : List Timer) (t : Nat) : List Timer :=
  timers.filter (fun tm => decide (t < tm.fireAt))

/-- Firing a list of timers in order: each `setTimeout` callback runs
`setActiveStep(idx + 1)`, overwriting the active step. -/
def fireTimers (timers : List Timer) (active : Nat) : Nat :=
  timers.foldl (fun _ tm => tm.newStep) active

/-! ## Helper lemmas -/

/-- Unwrapping the success object of `postJSON`: the chain reads only the
`data` and (absent) `content` fields, so it reduces to
`content.data || content || null`. -/
theorem selectPayload_success (c p : JsVal) :
    selectPayload (JsVal.obj [("ok", .bool true), ("data", c), ("raw", p)]) =
      jsOr (jsGet c "data") (jsOr c JsVal.null) := rfl

/-- The whole success-path normalization in terms of the extracted content. -/
theorem normalize_eq (payload : JsVal) :
    normalize payload =
      jsOr (jsGet (contentOf payload) "data") (jsOr (contentOf payload) JsVal.null) := rfl

/-- A string payload whose parse fails stays the literal string; the unwrap
chain then returns it unchanged when non-empty and degrades to `null` when
empty. -/
theorem normalize_str_of_parse_fail (s : String) (h : jsonParse s = none) :
    normalize (JsVal.str s) = if s = "" then JsVal.null else JsVal.str s := by
  have hc : contentOf (JsVal.str s) = JsVal.str s := by
    simp [contentOf, jsGet, jsNullish, nullish, h]
  rw [normalize_eq, hc]
  by_cases hs : s = "" <;> simp [jsGet, jsOr, truthy, hs]

/-! ## C2: the normalization path never throws and degrades gracefully -/

/-- C2: for every raw server payload (object, string, null, or absent), the
normalization path returns a value without throwing: the fallible model
`normalizeE`, in which `JSON.parse` genuinely throws, always returns
`Except.ok` of the total model's value; a nullish (absent/null) payload
yields the designated empty result `null`, and a string payload that fails to
parse degrades to the literal string (or to the empty result when the string
is empty). -/
theorem normalize_never_throws (payload : JsVal) :
    normalizeE payload = Except.ok (normalize payload) ∧
    (nullish payload = true → normalize payload = JsVal.null) ∧
    (∀ s, payload = JsVal.str s → jsonParse s = none →
      normalize payload = if s = "" then JsVal.null else JsVal.str s) := by
  refine ⟨?_, ?_, ?_⟩
  · have hce : contentOfE payload = Except.ok (contentOf payload) := by
      unfold contentOfE contentOf jsonParseE
      cases jsNullish (jsGet payload "analysis") payload <;> try rfl
      rename_i s
      dsimp only
      cases jsonParse s <;> rfl
    unfold normalizeE normalize postJSONE postJSON
    rw [hce]
    rfl
  · intro h
    cases payload <;> simp [nullish] at h <;> rfl
  · intro s hs hp
    subst hs
    exact normalize_str_of_parse_fail s hp

/-- C2 witness: at the unparseable string payload `"nope"` and at the absent
payload `null`. -/
theorem normalize_never_throws_w :
    normalizeE (JsVal.str "nope") = Except.ok (normalize (JsVal.str "nope")) ∧
    normalize (JsVal.str "nope") = JsVal.str "nope" ∧
    normalize JsVal.null = JsVal.null := by
  refine ⟨(normalize_never_throws (JsVal.str "nope")).1, ?_,
    (normalize_never_throws JsVal.null).2.1 rfl⟩
  have h := (normalize_never_throws (JsVal.str "nope")).2.2 "nope" rfl (by rfl)
  simpa using h

/-! ## C3: the unwrap chain -/

/-- C3 counterexample: the claim's selection rule fails as stated.  With no
`data`/`content` fields at all, the chain returns `null`, not the raw value
itself; and a `data.data` field that exists but is falsy (the empty string)
is skipped rather than used. -/
theorem selectPayload_cex :
    selectPayload (JsVal.obj []) = JsVal.null ∧
    JsVal.obj [] ≠ JsVal.null ∧
    selectPayload (JsVal.obj [("data", JsVal.obj [("data", JsVal.str "")])]) =
      JsVal.obj [("data", JsVal.str "")] ∧
    JsVal.obj [("data", JsVal.str "")] ≠ JsVal.str "" := by
  refine ⟨rfl, ?_, rfl, ?_⟩ <;> intro h <;> exact JsVal.noConfusion h

/-- C3 amended: the selection tries `res.data.data`, then `res.data`, then
`res.content` in this order, but each rule fires on a truthy value (not mere
existence), and when none is truthy the result is `null`, not `res`
itself. -/
theorem selectPayload_order (res : JsVal) :
    (truthy (jsGet (jsGet res "data") "data") = true →
      selectPayload res = jsGet (jsGet res "data") "data") ∧
    (truthy (jsGet (jsGet res "data") "data") = false →
      truthy (jsGet res "data") = true →
      selectPayload res = jsGet res "data") ∧
    (truthy (jsGet (jsGet res "data") "data") = false →
      truthy (jsGet res "data") = false →
      truthy (jsGet res "content") = true →
      selectPayload res = jsGet res "content") ∧
    (truthy (jsGet (jsGet res "data") "data") = false →
      truthy (jsGet res "data") = false →
      truthy (jsGet res "content") = false →
      selectPayload res = JsVal.null) := by
  unfold selectPayload
  refine ⟨fun h1 => ?_, fun h1 h2 => ?_, fun h1 h2 h3 => ?_, fun h1 h2 h3 => ?_⟩ <;>
    simp [jsOr, h1] <;> simp [h2] <;> simp [h3]

/-- C3 witness: a truthy `data.data` is selected. -/
theorem selectPayload_order_w :
    selectPayload (JsVal.obj [("data", JsVal.obj [("data", JsVal.num 7)])]) =
      jsGet (jsGet (JsVal.obj [("data", JsVal.obj [("data", JsVal.num 7)])]) "data") "data" :=
  (selectPayload_order (JsVal.obj [("data", JsVal.obj [("data", JsVal.num 7)])])).1 rfl

/-! ## C4: unwrap-then-parse -/

/-- C4 counterexample: embedding the JSON encoding of `\x7b"a":1\x7d` at the
`data` unwrap level yields the literal string, while embedding the parsed
object yields the object — `JSON.parse` is attempted only on the top-level
selected content, never on values produced by the `data`/`data.data`/`content`
unwrap rules. -/
theorem normalize_nested_string_cex :
    normalize (JsVal.obj [("data", JsVal.str "\x7b\"a\":1\x7d")]) =
      JsVal.str "\x7b\"a\":1\x7d" ∧
    normalize (JsVal.obj [("data", JsVal.obj [("a", JsVal.num 1)])]) =
      JsVal.obj [("a", JsVal.num 1)] ∧
    jsonParse "\x7b\"a\":1\x7d" = some (JsVal.obj [("a", JsVal.num 1)]) ∧
    JsVal.str "\x7b\"a\":1\x7d" ≠ JsVal.obj [("a", JsVal.num 1)] := by
  refine ⟨rfl, rfl, rfl, fun h => JsVal.noConfusion h⟩

/-- C4 amended: the parse-transparency holds exactly where the code parses,
namely for the top-level selected content.  For every string `s` that parses
to an object `v`: a payload carrying `s` under `analysis` normalizes the same
as one carrying `v`; a string payload `s` itself normalizes the same as `v`
when `v` has no `analysis` field; and a selected string that is not valid
JSON is kept unchanged as the literal display payload (empty string degrading
to the empty result). -/
theorem normalize_parse_transparency (s : String) (v : JsVal) :
    (jsonParse s = some v → (∃ fields, v = JsVal.obj fields) →
      normalize (JsVal.obj [("analysis", JsVal.str s)]) =
        normalize (JsVal.obj [("analysis", v)])) ∧
    (jsonParse s = some v → (∃ fields, v = JsVal.obj fields) →
      jsGet v "analysis" = JsVal.undefined →
      normalize (JsVal.str s) = normalize v) ∧
    (jsonParse s = none →
      normalize (JsVal.str s) = if s = "" then JsVal.null else JsVal.str s) := by
  refine ⟨fun hp hv => ?_, fun hp hv ha => ?_, fun hp => normalize_str_of_parse_fail s hp⟩
  · obtain ⟨fields, rfl⟩ := hv
    rw [normalize_eq, normalize_eq]
    have h1 : contentOf (JsVal.obj [("analysis", JsVal.str s)]) = JsVal.obj fields := by
      simp [contentOf, jsGet, getField, jsNullish, nullish, hp]
    have h2 : contentOf (JsVal.obj [("analysis", JsVal.obj fields)]) = JsVal.obj fields := by
      simp [contentOf, jsGet, getField, jsNullish, nullish]
    rw [h1, h2]
  · obtain ⟨fields, rfl⟩ := hv
    rw [normalize_eq, normalize_eq]
    have h1 : contentOf (JsVal.str s) = JsVal.obj fields := by
      simp [contentOf, jsGet, jsNullish, nullish, hp]
    have h2 : contentOf (JsVal.obj fields) = JsVal.obj fields := by
      unfold contentOf
      rw [ha]
      rfl
    rw [h1, h2]

/-- C4 witness: the `analysis`-level transparency at a concrete encoded
object. -/
theorem normalize_parse_transparency_w :
    normalize (JsVal.obj [("analysis", JsVal.str "\x7b\"a\":1\x7d")]) =
      normalize (JsVal.obj [("analysis", JsVal.obj [("a", JsVal.num 1)])]) :=
  (normalize_parse_transparency "\x7b\"a\":1\x7d" (JsVal.obj [("a", JsVal.num 1)])).1
    rfl ⟨[("a", JsVal.num 1)], rfl⟩

/-! ## C5: bounded history push -/

/-- Taking `n` from an already-`n`-truncated right part is the same as taking
`n` from the untruncated append. -/
theorem take_append_take (n : Nat) (a b : List JsVal) :
    (a ++ b.take n).take n = (a ++ b).take n := by
  rw [List.take_append_eq_append_take, List.take_append_eq_append_take, List.take_take,
    Nat.min_eq_left (Nat.sub_le _ _)]

/-- Invariant of sequential pushes: starting from an in-memory log of at most
30 entries, the log is the 30 newest entries newest-first, and, as soon as at
least one push happened, the persisted blob is the serialization of exactly
that log. -/
theorem pushAll_spec (es : List JsVal) (st : HistState) (h : st.mem.length ≤ 30) :
    (pushAll es st).mem = (es.reverse ++ st.mem).take 30 ∧
    (pushAll es st).storage =
      if es.isEmpty then st.storage
      else some (jsonStringify (JsVal.arr ((es.reverse ++ st.mem).take 30))) := by
  induction es generalizing st with
  | nil =>
    simp [pushAll, List.take_of_length_le h]
  | cons e es ih =>
    have hstep : pushAll (e :: es) st = pushAll es (pushLog e st) := rfl
    have hlen : (pushLog e st).mem.length ≤ 30 := by
      simp [pushLog, List.length_take]
    obtain ⟨hmem, hsto⟩ := ih (pushLog e st) hlen
    have hmem30 : (pushLog e st).mem = (e :: st.mem).take 30 := rfl
    have hfix : (es.reverse ++ (e :: st.mem).take 30).take 30 =
        ((e :: es).reverse ++ st.mem).take 30 := by
      rw [take_append_take]
      simp
    constructor
    · rw [hstep, hmem, hmem30, hfix]
    · rw [hstep, hsto, hmem30]
      cases es with
      | nil =>
        simp [pushLog, pushAll]
      | cons f fs =>
        simp only [List.isEmpty_cons, if_neg]
        rw [hfix]
        simp

/-- C5: pushing 31 entries into an initially empty history leaves exactly the
30 most recently pushed entries, most-recent-first (the reversed push order,
truncated to 30), and exactly that list is persisted. -/
theorem pushHistory_cap30 (es : List JsVal) (h : es.length = 31) :
    pushAll es ⟨[], none⟩ =
      ⟨es.reverse.take 30, some (jsonStringify (JsVal.arr (es.reverse.take 30)))⟩ ∧
    (es.reverse.take 30).length = 30 := by
  obtain ⟨hmem, hsto⟩ := pushAll_spec es ⟨[], none⟩ (by simp)
  have hne : es.isEmpty = false := by
    cases es with
    | nil => simp at h
    | cons f fs => rfl
  constructor
  · have heta : pushAll es ⟨[], none⟩ =
        ⟨(pushAll es ⟨[], none⟩).mem, (pushAll es ⟨[], none⟩).storage⟩ := rfl
    rw [heta, hmem, hsto, hne]
    simp
  · simp [List.length_take, h]

/-- C5 witness: 31 concrete distinct entries. -/
theorem pushHistory_cap30_w :
    pushAll ((List.range 31).map (fun i => JsVal.num i)) ⟨[], none⟩ =
      ⟨((List.range 31).map (fun i => JsVal.num i)).reverse.take 30,
        some (jsonStringify (JsVal.arr
          (((List.range 31).map (fun i => JsVal.num i)).reverse.take 30)))⟩ ∧
    (((List.range 31).map (fun i => JsVal.num i)).reverse.take 30).length = 30 :=
  pushHistory_cap30 _ (by decide)

/-! ## C8: blank-query validation -/

/-- C8: submitting an empty or whitespace-only query sets the validation
error message and does nothing else: no request is issued, `loading` is never
set (no transition to Submitting), and the result, history and persisted blob
are untouched. -/
theorem submit_rejects_blank (st : AppState) (outcome : HttpOutcome) (now : Int)
    (ts : String) (h : jsTrim st.query = "") :
    handleSubmit st outcome now ts =
      ({ st with error := "Please enter a company name or query." }, false) ∧
    (handleSubmit st outcome now ts).1.data = st.data ∧
    (handleSubmit st outcome now ts).1.loading = st.loading ∧
    (handleSubmit st outcome now ts).1.history = st.history ∧
    (handleSubmit st outcome now ts).1.storage = st.storage ∧
    (handleSubmit st outcome now ts).2 = false := by
  have he : handleSubmit st outcome now ts =
      ({ st with error := "Please enter a company name or query." }, false) := by
    simp [handleSubmit, h]
  refine ⟨he, ?_, ?_, ?_, ?_, ?_⟩ <;> rw [he]

/-- C8 witness: a whitespace-only query. -/
theorem submit_rejects_blank_w :
    handleSubmit ⟨"  ", JsVal.null, false, "", [], [], 0, none⟩
        (.response 200 JsVal.null) 0 "2025-01-01" =
      ({ query := "  ", data := JsVal.null, loading := false,
         error := "Please enter a company name or query.", history := [],
         feedback := [], activeStep := 0, storage := none }, false) :=
  (submit_rejects_blank ⟨"  ", JsVal.null, false, "", [], [], 0, none⟩
    (.response 200 JsVal.null) 0 "2025-01-01" rfl).1

/-! ## C9: failure-path error message -/

/-- C9 counterexample: a `detail` field that is present but empty is not used;
the synthesized `"HTTP 500"` fallback appears instead, so "equals the
server-supplied detail string when present" fails as stated. -/
theorem error_detail_cex :
    (handleSubmit ⟨"AAPL", JsVal.null, false, "", [], [], 0, none⟩
        (.response 500 (JsVal.obj [("detail", JsVal.str "")])) 0 "t").1.error =
      "HTTP 500" ∧
    "HTTP 500" ≠ "" := by
  exact ⟨rfl, by decide⟩

/-- C9 amended: on a failed response the user-visible message is the
server-supplied `detail` string when present and non-empty (truthy), and
otherwise the synthesized fallback — `"HTTP <status>"` for a non-2xx status,
the exception message (or `"Network error"` when it is empty) for a network
failure; in every case the history log and persisted blob are unchanged and
no entry is recorded. -/
theorem submit_failure_error (st : AppState) (now : Int) (ts : String)
    (hq : ¬ jsTrim st.query = "") :
    (∀ status payload s, okStatus status = false →
      jsGet payload "detail" = JsVal.str s → s ≠ "" →
      handleSubmit st (.response status payload) now ts =
        ({ st with loading := false, error := s, data := JsVal.null, feedback := [], activeStep := 0 }, true)) ∧
    (∀ status payload, okStatus status = false →
      jsGet payload "detail" = JsVal.undefined →
      handleSubmit st (.response status payload) now ts =
        ({ st with loading := false, error := "HTTP " ++ toString status, data := JsVal.null, feedback := [], activeStep := 0 }, true)) ∧
    (∀ m, handleSubmit st (.networkError m) now ts =
        ({ st with loading := false, error := if m = "" then "Network error" else m, data := JsVal.null, feedback := [], activeStep := 0 }, true)) := by
  have hhttp : ∀ status : Nat, ("HTTP " ++ toString status) ≠ "" := by
    intro status hcon
    have hlen := congrArg String.length hcon
    rw [String.length_append] at hlen
    have h5 : ("HTTP ").length = 5 := rfl
    have h0 : ("" : String).length = 0 := rfl
    omega
  refine ⟨fun status payload s hok hd hs => ?_, fun status payload hok hd => ?_,
    fun m => ?_⟩
  · have hres : postJSON (.response status payload) =
        JsVal.obj [("ok", .bool false), ("error", JsVal.str s)] := by
      simp [postJSON, hok, hd, jsOr, truthy, bne_iff_ne, hs]
    simp [handleSubmit, hq, hres, truthy, errMsg, jsGet, getField, jsToString, jsOr,
      bne_iff_ne, hs]
  · have hres : postJSON (.response status payload) =
        JsVal.obj [("ok", .bool false),
          ("error", JsVal.str ("HTTP " ++ toString status))] := by
      simp [postJSON, hok, hd, jsOr, truthy]
    simp [handleSubmit, hq, hres, truthy, errMsg, jsGet, getField, jsToString, jsOr,
      bne_iff_ne, hhttp status]
  · have hne : ("Network error" : String) ≠ "" := by decide
    by_cases hm : m = "" <;>
      simp [handleSubmit, hq, postJSON, truthy, errMsg, jsGet, getField, jsOr,
        jsToString, bne_iff_ne, hm, hne]

/-- C9 witness: the HTTP 500 / `detail: "rate limited"` scenario, starting
from a state with one prior history entry: the message is exactly
`"rate limited"` and the history (and its persisted blob) are unchanged. -/
theorem submit_failure_error_w :
    handleSubmit ⟨"AAPL summary", JsVal.null, false, "", [JsVal.num 9], [], 0, some "[9]"⟩
        (.response 500 (JsVal.obj [("detail", JsVal.str "rate limited")])) 0 "t" =
      ({ query := "AAPL summary", data := JsVal.null, loading := false,
         error := "rate limited", history := [JsVal.num 9], feedback := [],
         activeStep := 0, storage := some "[9]" }, true) :=
  (submit_failure_error ⟨"AAPL summary", JsVal.null, false, "", [JsVal.num 9], [], 0,
      some "[9]"⟩ 0 "t" (by decide)).1
    500 (JsVal.obj [("detail", JsVal.str "rate limited")]) "rate limited"
    rfl rfl (by decide)

/-! ## C10: the committed display value of `App.jsx` -/

/-- C10 counterexample: a successful response whose body is the string
`"123"` commits exactly that string as the display value, and `"123"` is
itself valid JSON — the committed result is an unparsed valid-JSON string
presented as text (the parse in `postJSON` is discarded because the commit
reads `res.raw`). -/
theorem committed_json_string_cex :
    committedAnalysis (postJSON (.response 200 (JsVal.str "123"))) = JsVal.str "123" ∧
    jsonParse "123" = some (JsVal.num 123) := by
  exact ⟨rfl, rfl⟩

/-- C10 amended: the committed display value is computed from the raw
payload, ignoring the parsed `data`: a structured payload (object or array)
is serialized to a JSON string for display, and any other payload — including
a string that happens to be valid JSON — is committed literally. -/
theorem committed_from_raw (status : Nat) (payload : JsVal)
    (hok : okStatus status = true) (hp : nullish payload = false) :
    committedAnalysis (postJSON (.response status payload)) =
      if typeofObject payload then JsVal.str (jsonStringify payload) else payload := by
  simp [postJSON, hok, committedAnalysis, jsGet, getField, jsNullish, hp]
  simp [nullish]

/-- C10 witness: an object payload is committed as its serialization. -/
theorem committed_from_raw_w :
    committedAnalysis (postJSON (.response 200 (JsVal.obj [("a", JsVal.num 1)]))) =
      if typeofObject (JsVal.obj [("a", JsVal.num 1)])
      then JsVal.str (jsonStringify (JsVal.obj [("a", JsVal.num 1)]))
      else JsVal.obj [("a", JsVal.num 1)] :=
  committed_from_raw 200 (JsVal.obj [("a", JsVal.num 1)]) rfl rfl

/-! ## C1: pending transitions of a superseded run are not cancelled -/

/-- C1 (code bug): run 0 (two declared stages, submitted at t = 0) schedules
its two transitions; a new run 1 starting at t = 100 with no stages of its
own leaves both of them pending — `scheduleSteps` (mirroring the
`setTimeout` loop, with no `clearTimeout` anywhere in the source) only adds
timers.  Both prior-run timers are still pending after the new run starts,
and firing them drives `activeStep` from the fresh 0 to 2: two
`ProgressState` updates originating from the superseded run are applied
after the new run starts, where the claim requires zero. -/
theorem stale_timers_not_cancelled :
    scheduleSteps 1 100 []
        (scheduleSteps 0 0 [JsVal.str "Fetching data", JsVal.str "Scoring"] []) =
      [⟨0, 800, 1⟩, ⟨0, 1600, 2⟩] ∧
    pendingAfter [⟨0, 800, 1⟩, ⟨0, 1600, 2⟩] 100 = [⟨0, 800, 1⟩, ⟨0, 1600, 2⟩] ∧
    fireTimers [⟨0, 800, 1⟩, ⟨0, 1600, 2⟩] 0 = 2 := by
  exact ⟨rfl, rfl, rfl⟩

/-! ## C6: loading a corrupt persisted blob -/

/-- C6 (code bug): on the corrupt blob `"\x7b\x7b"` the `part_001` load
effect propagates the `JSON.parse` exception (it has no `try`/`catch`),
while the `App.jsx` variant — matching the claim and the spec's intent —
degrades to the empty log, as it also does for an absent blob. -/
theorem corrupt_blob_load :
    loadPart001 (some "\x7b\x7b") = Except.error "SyntaxError" ∧
    loadApp (some "\x7b\x7b") = JsVal.arr [] ∧
    loadApp none = JsVal.arr [] := by
  exact ⟨rfl, rfl, rfl⟩

/-! ## C7: clearing the history -/

/-- C7 (code bug): in the `part_001` App the Clear button removes the
persisted blob but leaves the in-memory log untouched (the `onClear` prop is
not wired, so `HistoryList`'s "tell parent to clear state" callback is a
no-op), contradicting "empties the in-memory log"; the `App.jsx` wiring does
both, and a fresh load against the cleared store returns the empty log. -/
theorem clear_part001_leaves_memory :
    clearPart001 ⟨[JsVal.obj [("id", JsVal.num 1)]], some "blob"⟩ =
      ⟨[JsVal.obj [("id", JsVal.num 1)]], none⟩ ∧
    ([JsVal.obj [("id", JsVal.num 1)]] : List JsVal) ≠ [] ∧
    clearApp ⟨[JsVal.obj [("id", JsVal.num 1)]], some "blob"⟩ = ⟨[], none⟩ ∧
    loadApp (clearPart001 ⟨[JsVal.obj [("id", JsVal.num 1)]], some "blob"⟩).storage =
      JsVal.arr [] := by
  refine ⟨rfl, by simp, rfl, rfl⟩

end StockScreener
